import Mathlib

/-!
Verification of the job-tracking frontend of the maillage-interne deployment
repository.

The development shallowly embeds the three components the specification
describes:

* the `ProgressTracker` component (job-status synchronizer): websocket frame
  handling, HTTP polling fallback, log-history deduplication, forced
  completion, and the results-availability condition;
* the `AnalysisPage` component (workflow controller): submission
  (`startAnalysis`) and `handleReset`;
* the `RulesMatrix` component (rule-matrix validator): `handleRuleChange`.

React `useState` state is modelled as explicit records; each event handler
becomes a pure function from the old state (plus the event's data) to the new
state, which matches the single-threaded event-loop semantics of the browser.
-/

namespace Maillage

/-- Status frame / poll response, as consumed by `ProgressTracker`
(`{ status, progress, message, result_file? }`).  `status` is kept as a free
string because the source compares it with string literals; `result_file` is
optional as in the wire format. -/
structure Frame where
  status : String
  progress : Int
  message : String
  result_file : Option String
deriving DecidableEq

/-- The `useState` state of the `ProgressTracker` component: `jobStatus`,
`logHistory`, `error`, `loading`. -/
structure TrackerState where
  jobStatus : Option Frame
  logHistory : List String
  error : Option String
  loading : Bool
deriving DecidableEq

/-- Initial `ProgressTracker` state: `useState(null)`, `useState([])`,
`useState(null)`, `useState(true)`. -/
def initialTracker : TrackerState :=
  { jobStatus := none, logHistory := [], error := none, loading := true }

/-- The log-append logic of the `lastJsonMessage` effect: the message is
appended only when it is truthy (non-empty) and differs from the last entry
(`logHistory.length === 0 || logHistory[logHistory.length - 1] !==
lastJsonMessage.message`). -/
def appendLog (log : List String) (msg : String) : List String :=
  if msg ≠ "" ∧ (log = [] ∨ log.getLast? ≠ some msg) then log ++ [msg] else log

/-- Effect run on each inbound websocket frame: `setJobStatus(lastJsonMessage)`
(wholesale replacement) followed by the conditional log append. -/
def wsFrameStep (s : TrackerState) (f : Frame) : TrackerState :=
  { s with jobStatus := some f, logHistory := appendLog s.logHistory f.message }

/-- Success path of `fetchStatusHTTP`: `setJobStatus(data); setLoading(false)`. -/
def fetchStatusHTTPOk (s : TrackerState) (p : Frame) : TrackerState :=
  { s with jobStatus := some p, loading := false }

/-- Failure path of `fetchStatusHTTP`: `setError(...); setLoading(false)`.
The canonical `jobStatus` is not touched. -/
def fetchStatusHTTPErr (s : TrackerState) (msg : String) : TrackerState :=
  { s with error := some msg, loading := false }

/-- Events dequeued by the tracker's event loop: an inbound websocket frame, or
a websocket error (whose handler sets the error, stops loading, and issues one
HTTP fallback poll, which either succeeds with a poll response or fails). -/
inductive TEvent where
  | wsFrame (f : Frame)
  | wsError (poll : Option Frame)
deriving DecidableEq

/-- One step of the tracker's event loop.  The `wsError` branch reflects the
`onError` handler: `setError('Erreur de connexion au serveur WebSocket');
setLoading(false); fetchStatusHTTP()`. -/
def trackerStep (s : TrackerState) (e : TEvent) : TrackerState :=
  match e with
  | .wsFrame f => wsFrameStep s f
  | .wsError poll =>
    let s1 := { s with error := some "Erreur de connexion au serveur WebSocket",
                       loading := false }
    match poll with
    | some p => fetchStatusHTTPOk s1 p
    | none => fetchStatusHTTPErr s1 "Erreur lors de la récupération du statut"

/-- Sequential processing of a list of tracker events (serialized by the
browser event loop). -/
def processEvents (s : TrackerState) (evs : List TEvent) : TrackerState :=
  evs.foldl trackerStep s

/-- Response of the `force-complete` administrative endpoint (same shape as a
status frame; only the fields the handler reads are kept). -/
structure ForceResp where
  status : String
  result_file : Option String
deriving DecidableEq

/-- Success path of `handleStopAnalysis`: when the endpoint answers with
`status === 'completed'`, the canonical status is overwritten with a descriptor
that is completed, at progress 100, with a fixed message and the endpoint's
`result_file`; otherwise `jobStatus` is left as it was. -/
def handleStopAnalysisSuccess (prev : Option Frame) (resp : ForceResp) :
    Option Frame :=
  if resp.status = "completed" then
    some { status := "completed", progress := 100,
           message := "Analyse terminée avec succès (forcé)",
           result_file := resp.result_file }
  else prev

/-- JavaScript truthiness of an optional string (`undefined`/absent and the
empty string are falsy). -/
def truthyStr : Option String → Bool
  | none => false
  | some s => ! (s == "")

/-- The render condition guarding the view/download-results buttons:
`jobStatus.status === 'completed' || (jobStatus.result_file &&
jobStatus.progress === 100)`. -/
def resultsAvailable (j : Frame) : Bool :=
  (j.status == "completed") || (truthyStr j.result_file && j.progress == 100)

/-! ## Rule matrix validator (`RulesMatrix.handleRuleChange`) -/

/-- One cell of the rule matrix: `{ min_links, max_links }`. -/
structure Cell where
  min_links : Int
  max_links : Int
deriving DecidableEq

/-- Lookup in an association list keyed by strings (value semantics of a
JavaScript object used as a dictionary). -/
def lookupA {α : Type} (k : String) : List (String × α) → Option α
  | [] => none
  | (k0, v) :: rest => if k = k0 then some v else lookupA k rest

/-- Insert-or-replace in an association list keyed by strings. -/
def insertA {α : Type} (k : String) (v : α) :
    List (String × α) → List (String × α)
  | [] => [(k, v)]
  | (k0, v0) :: rest =>
    if k = k0 then (k, v) :: rest else (k0, v0) :: insertA k v rest

/-- The nested `rules` object: source segment → target segment → cell. -/
abbrev Rules : Type := List (String × List (String × Cell))

/-- `rules[sourceType]?.[targetType]`. -/
def getCell (rules : Rules) (s t : String) : Option Cell :=
  (lookupA s rules).bind (lookupA t)

/-- Functional value of the nested update `newRules[s][t] = c`, creating the
source and target levels when missing (the source creates `{}` and
`{ min_links: 0, max_links: 0 }`; the cell passed in already accounts for the
default). -/
def setCell (rules : Rules) (s t : String) (c : Cell) : Rules :=
  insertA s (insertA t c ((lookupA s rules).getD [])) rules

/-- The two editable fields of a cell. -/
inductive RuleField where
  | min_links
  | max_links
deriving DecidableEq

/-- `handleRuleChange(sourceType, targetType, field, value)` from
`RulesMatrix`: `value` is the `parseInt` result (`none` models `NaN`).
Invalid (`NaN` or negative) values return without mutation.  Otherwise the
cell (defaulted to `{0, 0}` when absent) gets the field set, then the repair
runs: setting `min_links` above `max_links` raises `max_links`; setting
`max_links` below `min_links` lowers `min_links`. -/
def handleRuleChange (rules : Rules) (sourceType targetType : String)
    (field : RuleField) (value : Option Int) : Rules :=
  match value with
  | none => rules
  | some numValue =>
    if numValue < 0 then rules
    else
      let cell0 := (getCell rules sourceType targetType).getD ⟨0, 0⟩
      let cell1 :=
        match field with
        | .min_links => { cell0 with min_links := numValue }
        | .max_links => { cell0 with max_links := numValue }
      let cell2 :=
        match field with
        | .min_links =>
          if numValue > cell1.max_links then { cell1 with max_links := numValue }
          else cell1
        | .max_links =>
          if numValue < cell1.min_links then { cell1 with min_links := numValue }
          else cell1
      setCell rules sourceType targetType cell2

/-- The `useState` state of the `RulesMatrix` component that the edit handler
can reach (`rules` plus the user-facing `error`; `handleRuleChange` only ever
calls `setRules`). -/
structure MatrixState where
  rules : Rules
  error : Option String
deriving DecidableEq

/-- `handleRuleChange` at the component level: only the `rules` slot changes. -/
def handleRuleChangeUI (s : MatrixState) (sourceType targetType : String)
    (field : RuleField) (value : Option Int) : MatrixState :=
  { s with rules := handleRuleChange s.rules sourceType targetType field value }

/-- Longest leading run of decimal digits of a character list. -/
def digitsPrefix : List Char → List Char
  | [] => []
  | c :: rest => if c.isDigit then c :: digitsPrefix rest else []

/-- Decimal value of a digit list. -/
def digitsVal (ds : List Char) : Int :=
  ds.foldl (fun acc c => acc * 10 + ((c.toNat : Int) - 48)) 0

/-- Model of JavaScript `parseInt(value, 10)` on the values a number input can
produce: an optional sign followed by the longest leading run of decimal
digits; `none` models `NaN` (no leading digit).  Everything after the digit
run — such as a fractional part — is discarded, so `"3.7"` parses to `3` and
`"-0.5"` parses to `-0`, which as an integer is `0`.  (Leading whitespace,
which `parseInt` would skip, cannot occur in a number input's value and is not
modelled.) -/
def parseIntJS (value : String) : Option Int :=
  let cs := value.toList
  let signRest :=
    match cs with
    | '-' :: tl => ((-1 : Int), tl)
    | '+' :: tl => ((1 : Int), tl)
    | _ => ((1 : Int), cs)
  let ds := digitsPrefix signRest.2
  if ds = [] then none else some (signRest.1 * digitsVal ds)

/-- The source's `handleRuleChange` entry point on the raw input string: its
first statement is `const numValue = parseInt(value, 10)`, after which the
post-parse core runs. -/
def handleRuleChangeStr (s : MatrixState) (sourceType targetType : String)
    (field : RuleField) (value : String) : MatrixState :=
  handleRuleChangeUI s sourceType targetType field (parseIntJS value)

/-- A recorded `handleRuleChange` invocation. -/
structure RuleCall where
  source : String
  target : String
  field : RuleField
  value : Option Int
deriving DecidableEq

/-- Apply a sequence of edits to a rule matrix. -/
def applyCalls (init : Rules) (calls : List RuleCall) : Rules :=
  calls.foldl (fun r c => handleRuleChange r c.source c.target c.field c.value)
    init

/-- Per-cell invariant of the spec: `minLinks ≤ maxLinks`. -/
def CellInv (c : Cell) : Prop := c.min_links ≤ c.max_links

/-- Matrix-wide invariant: every materialized cell satisfies `CellInv`. -/
def RulesInv (rules : Rules) : Prop :=
  ∀ s t c, getCell rules s t = some c → CellInv c

/-! ## Workflow controller (`AnalysisPage`) -/

/-- Upload-service response kept by the page (`{ path, filename }`; these are
the fields the page reads). -/
structure FileDesc where
  path : String
  filename : String
deriving DecidableEq

/-- The `useState` state of `AnalysisPage`: stepper position, the three file
slots, the analysis configuration, the in-flight flag, the error banner and
the job id. -/
structure PageState where
  activeStep : Nat
  contentFile : Option FileDesc
  linksFile : Option FileDesc
  gscFile : Option FileDesc
  minSimilarity : Rat
  anchorSuggestions : Int
  analyzing : Bool
  error : Option String
  jobId : Option String
deriving DecidableEq

/-- Outcome of the `POST /analyze` request issued by `startAnalysis`. -/
inductive SubmitOutcome where
  | success (jobId : String)
  | failure
deriving DecidableEq

/-- `startAnalysis` from `AnalysisPage`, as a function of the state and the
request outcome.  The boolean reports whether a submission request was issued.
Without a content file: set the error, issue nothing.  Otherwise clear the
error, set `analyzing`, issue the request; success stores `job_id` and moves
to step 2, failure sets the fixed error message and clears `analyzing`.  The
source has no guard on `analyzing`. -/
def startAnalysis (s : PageState) (outcome : SubmitOutcome) :
    PageState × Bool :=
  if s.contentFile.isNone then
    ({ s with error := some "Veuillez télécharger un fichier de contenu" },
     false)
  else
    let s1 := { s with error := none, analyzing := true }
    match outcome with
    | .success j => ({ s1 with jobId := some j, activeStep := 2 }, true)
    | .failure =>
      ({ s1 with error := some "Erreur lors du démarrage de l\x27analyse",
                 analyzing := false }, true)

/-- The page together with the mounted `ProgressTracker` (present exactly when
the tracker component is rendered; its unmount discards its state and clears
its ping interval and websocket subscription). -/
structure AppState where
  page : PageState
  tracker : Option TrackerState
deriving DecidableEq

/-- `handleReset`: `setActiveStep(0); setContentFile(null); setLinksFile(null);
setGscFile(null); setJobId(null); setError(null)`.  Moving to step 0 unmounts
the tracker.  Note that `minSimilarity`, `anchorSuggestions` and `analyzing`
are not touched by the source. -/
def handleReset (a : AppState) : AppState :=
  { page := { a.page with
                activeStep := 0, contentFile := none, linksFile := none,
                gscFile := none, jobId := none, error := none },
    tracker := none }

/-- Delivery of a (possibly stale) status frame to the application: it reaches
the tracker only when one is mounted; otherwise it is dropped. -/
def deliverFrame (a : AppState) (f : Frame) : AppState :=
  match a.tracker with
  | some t => { a with tracker := some (wsFrameStep t f) }
  | none => a

/-! ## Association-list lemmas -/

theorem lookupA_insertA_self {α : Type} (k : String) (v : α)
    (l : List (String × α)) : lookupA k (insertA k v l) = some v := by
  induction l with
  | nil => simp [insertA, lookupA]
  | cons hd tl ih =>
    obtain ⟨k0, v0⟩ := hd
    by_cases h : k = k0
    · simp [insertA, h, lookupA]
    · simp [insertA, h, lookupA, ih]

theorem lookupA_insertA_ne {α : Type} (k q : String) (hne : q ≠ k) (v : α)
    (l : List (String × α)) : lookupA q (insertA k v l) = lookupA q l := by
  induction l with
  | nil => simp [insertA, lookupA, hne]
  | cons hd tl ih =>
    obtain ⟨k0, v0⟩ := hd
    by_cases h : k = k0
    · subst h
      simp [insertA, lookupA, hne]
    · simp [insertA, h, lookupA, ih]

theorem getCell_setCell_self (rules : Rules) (s t : String) (c : Cell) :
    getCell (setCell rules s t c) s t = some c := by
  unfold getCell setCell
  rw [lookupA_insertA_self]
  simp [lookupA_insertA_self]

theorem getCell_setCell_ne (rules : Rules) (s t s2 t2 : String) (c : Cell)
    (h : s2 ≠ s ∨ t2 ≠ t) :
    getCell (setCell rules s t c) s2 t2 = getCell rules s2 t2 := by
  unfold getCell setCell
  by_cases hs : s2 = s
  · subst hs
    have ht : t2 ≠ t := by
      rcases h with h | h
      · exact absurd rfl h
      · exact h
    rw [lookupA_insertA_self]
    cases hls : lookupA s2 rules with
    | none => simp [lookupA_insertA_ne t t2 ht, lookupA, ht]
    | some inner => simp [lookupA_insertA_ne t t2 ht]
  · rw [lookupA_insertA_ne s s2 hs]

/-- A single `handleRuleChange` call preserves the matrix-wide invariant
(the written cell is repaired unconditionally; other cells are untouched). -/
theorem rulesInv_handleRuleChange (rules : Rules) (hinv : RulesInv rules)
    (src tgt : String) (field : RuleField) (v : Option Int) :
    RulesInv (handleRuleChange rules src tgt field v) := by
  match v with
  | none => exact hinv
  | some n =>
    unfold handleRuleChange
    by_cases hn : n < 0
    · simpa [hn] using hinv
    · simp only [hn, if_false]
      intro s t c hc
      by_cases hst : s = src ∧ t = tgt
      · obtain ⟨rfl, rfl⟩ := hst
        rw [getCell_setCell_self] at hc
        injection hc with hc
        subst hc
        cases field <;> dsimp <;> split <;> unfold CellInv <;> dsimp <;> omega
      · rw [getCell_setCell_ne] at hc
        · exact hinv s t c hc
        · rcases not_and_or.mp hst with h | h
          · exact Or.inl h
          · exact Or.inr h

/-- Every sequence of edits preserves the matrix-wide invariant. -/
theorem rulesInv_applyCalls (calls : List RuleCall) :
    ∀ init : Rules, RulesInv init → RulesInv (applyCalls init calls) := by
  induction calls with
  | nil => exact fun init h => h
  | cons c rest ih =>
    intro init h
    exact ih _ (rulesInv_handleRuleChange init h c.source c.target c.field c.value)

/-- The empty matrix satisfies the invariant. -/
theorem rulesInv_nil : RulesInv ([] : Rules) := by
  intro s t c hc
  simp [getCell, lookupA] at hc

/-- C2: for every valid (source, target) cell and every sequence of
`setMin`/`setMax` calls, `minLinks ≤ maxLinks` holds for every cell after every
call (the statement over all call lists covers every prefix of a sequence);
`setMin` with `v > maxLinks` also raises `maxLinks` to `v`, `setMax` with
`v < minLinks` also lowers `minLinks` to `v`, and no valid call is rejected:
the targeted cell is always written. -/
theorem rule_matrix_min_le_max (init : Rules) (hinv : RulesInv init)
    (calls : List RuleCall) :
    RulesInv (applyCalls init calls)
    ∧ (∀ (rules : Rules) (s t : String) (v : Int), 0 ≤ v →
        getCell (handleRuleChange rules s t RuleField.min_links (some v)) s t =
          some ⟨v, max ((getCell rules s t).getD ⟨0, 0⟩).max_links v⟩)
    ∧ (∀ (rules : Rules) (s t : String) (v : Int), 0 ≤ v →
        getCell (handleRuleChange rules s t RuleField.max_links (some v)) s t =
          some ⟨min ((getCell rules s t).getD ⟨0, 0⟩).min_links v, v⟩) := by
  refine ⟨rulesInv_applyCalls calls init hinv, ?_, ?_⟩
  · intro rules s t v hv
    have hv2 : ¬ v < 0 := by omega
    unfold handleRuleChange
    simp only [hv2, if_false]
    rw [getCell_setCell_self]
    split
    · rename_i hgt
      have h1 : ((getCell rules s t).getD ⟨0, 0⟩).max_links ≤ v := le_of_lt hgt
      rw [max_eq_right h1]
    · rename_i hle
      have h1 : v ≤ ((getCell rules s t).getD ⟨0, 0⟩).max_links :=
        le_of_not_lt hle
      rw [max_eq_left h1]
  · intro rules s t v hv
    have hv2 : ¬ v < 0 := by omega
    unfold handleRuleChange
    simp only [hv2, if_false]
    rw [getCell_setCell_self]
    split
    · rename_i hlt
      have h1 : v ≤ ((getCell rules s t).getD ⟨0, 0⟩).min_links := le_of_lt hlt
      rw [min_eq_right h1]
    · rename_i hge
      have h1 : ((getCell rules s t).getD ⟨0, 0⟩).min_links ≤ v :=
        le_of_not_lt hge
      rw [min_eq_left h1]

/-- Witness for C2: the hypothesis holds for the empty matrix and the spec's
example edit sequence (`setMin 7` then `setMax 3` on one cell). -/
theorem rule_matrix_min_le_max_witness :
    RulesInv ([] : Rules)
    ∧ RulesInv (applyCalls []
        [⟨"blog", "produit", RuleField.min_links, some 7⟩,
         ⟨"blog", "produit", RuleField.max_links, some 3⟩]) :=
  ⟨rulesInv_nil,
   (rule_matrix_min_le_max [] rulesInv_nil
      [⟨"blog", "produit", RuleField.min_links, some 7⟩,
       ⟨"blog", "produit", RuleField.max_links, some 3⟩]).1⟩

/-- At the post-parse boundary, a `NaN` or negative `parseInt` result leaves
the component state (matrix and error slot) entirely unchanged. -/
theorem invalid_value_rejected (s : MatrixState) (src tgt : String)
    (field : RuleField) (v : Option Int)
    (hv : v = none ∨ ∃ n, v = some n ∧ n < 0) :
    handleRuleChangeUI s src tgt field v = s := by
  rcases hv with rfl | ⟨n, rfl, hn⟩
  · rfl
  · cases s
    simp [handleRuleChangeUI, handleRuleChange, hn]

/-- C9 counterexample: the raw input "3.7" is not a non-negative integer, yet
the call is not rejected — `parseInt` coerces it to 3 and the cell is written
(min set to 3, max raised to 3), so the matrix is mutated. -/
theorem noninteger_value_mutates :
    handleRuleChangeStr ⟨[], none⟩ "blog" "produit" RuleField.min_links "3.7"
      ≠ ⟨[], none⟩
    ∧ getCell (handleRuleChangeStr ⟨[], none⟩ "blog" "produit"
        RuleField.min_links "3.7").rules "blog" "produit" = some ⟨3, 3⟩ := by
  constructor <;> decide

/-- C9 amended: rejection happens at the post-parse boundary, not on the raw
input — a `setMin`/`setMax` call is silently rejected (no cell mutated, no
error forwarded upstream, the whole component state unchanged) exactly when
`parseInt` of the raw value yields `NaN` or a negative integer; non-integer
numeric inputs such as "3.7" (coerced to 3) or "-0.5" (coerced to -0, i.e. 0)
are instead coerced and do mutate the cell. -/
theorem parse_invalid_rejected (s : MatrixState) (src tgt : String)
    (field : RuleField) (value : String)
    (hv : parseIntJS value = none
          ∨ ∃ n, parseIntJS value = some n ∧ n < 0) :
    handleRuleChangeStr s src tgt field value = s :=
  invalid_value_rejected s src tgt field (parseIntJS value) hv

/-- Witness for C9 (amended): the raw input "-2" parses to the negative
integer -2 and the call leaves the state unchanged. -/
theorem parse_invalid_rejected_witness :
    (parseIntJS "-2" = none ∨ ∃ n, parseIntJS "-2" = some n ∧ n < 0)
    ∧ handleRuleChangeStr ⟨[], none⟩ "blog" "produit" RuleField.min_links "-2"
        = ⟨[], none⟩ :=
  ⟨Or.inr ⟨-2, by decide, by decide⟩,
   parse_invalid_rejected ⟨[], none⟩ "blog" "produit" RuleField.min_links "-2"
     (Or.inr ⟨-2, by decide, by decide⟩)⟩

/-! ## Synchronizer theorems -/

/-- C1: each inbound frame fully replaces the canonical descriptor (no
field-level merge), and for every event sequence ending in a frame carrying a
terminal status — regardless of how many transient channel errors occurred in
between — the canonical descriptor after processing is exactly that last
frame. -/
theorem last_writer_wins (evs : List TEvent) (f : Frame)
    (_hterm : f.status = "completed" ∨ f.status = "failed") :
    (∀ (s : TrackerState) (g : Frame), (wsFrameStep s g).jobStatus = some g)
    ∧ (processEvents initialTracker (evs ++ [TEvent.wsFrame f])).jobStatus =
        some f := by
  refine ⟨fun s g => rfl, ?_⟩
  unfold processEvents
  rw [List.foldl_append]
  rfl

/-- Witness for C1: two frames with a channel error before them; the canonical
descriptor ends up equal to the final, terminal frame. -/
theorem last_writer_wins_witness :
    ((⟨"completed", 100, "terminé", some "r1.xlsx"⟩ : Frame).status =
        "completed"
      ∨ (⟨"completed", 100, "terminé", some "r1.xlsx"⟩ : Frame).status =
        "failed")
    ∧ (processEvents initialTracker
        ([TEvent.wsError none,
          TEvent.wsFrame ⟨"running", 40, "Analyse de la page 10/25", none⟩] ++
         [TEvent.wsFrame ⟨"completed", 100, "terminé", some "r1.xlsx"⟩])).jobStatus
        = some ⟨"completed", 100, "terminé", some "r1.xlsx"⟩ :=
  ⟨Or.inl rfl,
   (last_writer_wins
      [TEvent.wsError none,
       TEvent.wsFrame ⟨"running", 40, "Analyse de la page 10/25", none⟩]
      ⟨"completed", 100, "terminé", some "r1.xlsx"⟩ (Or.inl rfl)).2⟩

/-- One conditional append keeps adjacent log entries distinct. -/
theorem chain_ne_appendLog (log : List String) (msg : String)
    (h : List.Chain' (· ≠ ·) log) :
    List.Chain' (· ≠ ·) (appendLog log msg) := by
  unfold appendLog
  split
  · rename_i hc
    rw [List.chain'_append]
    refine ⟨h, List.chain'_singleton _, ?_⟩
    intro x hx y hy
    simp only [List.head?_cons, Option.mem_def, Option.some.injEq] at hy
    rw [Option.mem_def] at hx
    rcases hc.2 with hnil | hne
    · subst hnil
      simp at hx
    · intro hxy
      apply hne
      rw [hx, hxy, hy]
  · exact h

/-- Every tracker event keeps adjacent log entries distinct. -/
theorem chain_ne_trackerStep (s : TrackerState) (e : TEvent)
    (h : List.Chain' (· ≠ ·) s.logHistory) :
    List.Chain' (· ≠ ·) (trackerStep s e).logHistory := by
  cases e with
  | wsFrame f => exact chain_ne_appendLog s.logHistory f.message h
  | wsError poll => cases poll <;> exact h

/-- Processing any event list keeps adjacent log entries distinct. -/
theorem chain_ne_processEvents (evs : List TEvent) :
    ∀ s : TrackerState, List.Chain' (· ≠ ·) s.logHistory →
      List.Chain' (· ≠ ·) (processEvents s evs).logHistory := by
  induction evs with
  | nil => exact fun s h => h
  | cons e rest ih => exact fun s h => ih _ (chain_ne_trackerStep s e h)

/-- C3: for every sequence of events delivered to the tracker — including the
same message arriving twice in a row — the log history never contains two
adjacent textually identical entries (a message may reappear later when a
different one intervened). -/
theorem log_adjacent_dedup (evs : List TEvent) :
    List.Chain' (· ≠ ·) (processEvents initialTracker evs).logHistory :=
  chain_ne_processEvents evs initialTracker List.chain'_nil

/-- C4: when the force-complete endpoint reports `completed`, the canonical
descriptor is deterministically overwritten — immediately, with no
corroborating frame or poll in the model — to a completed descriptor carrying
the endpoint's `result_file`; the overwrite is idempotent (a second call with
the same endpoint response is a no-op yielding the same descriptor) and never
lowers `progress` below its previous value. -/
theorem forceComplete_idempotent (prev : Option Frame) (resp : ForceResp)
    (hresp : resp.status = "completed") :
    handleStopAnalysisSuccess prev resp =
      some ⟨"completed", 100, "Analyse terminée avec succès (forcé)",
            resp.result_file⟩
    ∧ handleStopAnalysisSuccess (handleStopAnalysisSuccess prev resp) resp =
        handleStopAnalysisSuccess prev resp
    ∧ (∀ p : Frame, prev = some p → p.progress ≤ 100 →
        ∀ j : Frame, handleStopAnalysisSuccess prev resp = some j →
          p.progress ≤ j.progress) := by
  have hcond : handleStopAnalysisSuccess prev resp =
      some ⟨"completed", 100, "Analyse terminée avec succès (forcé)",
            resp.result_file⟩ := by
    unfold handleStopAnalysisSuccess
    rw [hresp]
    simp
  refine ⟨hcond, ?_, ?_⟩
  · rw [hcond]
    unfold handleStopAnalysisSuccess
    rw [hresp]
    simp
  · intro p hp hprog j hj
    rw [hcond] at hj
    injection hj with hj
    rw [← hj]
    exact hprog

/-- Witness for C4: forcing completion of a running job at progress 40. -/
theorem forceComplete_idempotent_witness :
    (⟨"completed", some "r1.xlsx"⟩ : ForceResp).status = "completed"
    ∧ handleStopAnalysisSuccess
        (some ⟨"running", 40, "Analyse de la page 10/25", none⟩)
        ⟨"completed", some "r1.xlsx"⟩ =
      some ⟨"completed", 100, "Analyse terminée avec succès (forcé)",
            some "r1.xlsx"⟩ :=
  ⟨rfl,
   (forceComplete_idempotent
      (some ⟨"running", 40, "Analyse de la page 10/25", none⟩)
      ⟨"completed", some "r1.xlsx"⟩ rfl).1⟩

/-- C5 counterexample: a single failed poll request is surfaced to the user —
the failure path of `fetchStatusHTTP` sets the user-visible error slot, which
replaces the progress view with the error panel. -/
theorem transient_poll_error_surfaced :
    (fetchStatusHTTPErr initialTracker
        "Erreur lors de la récupération du statut").error ≠ none := by
  decide

/-- C5 amended: a transient poll failure never overwrites the canonical
`jobStatus` — it is retained untouched — but the failure is surfaced through
the user-visible error slot, and the source has no polling tick: a failed poll
is reissued only by a later websocket error/close event. -/
theorem transient_poll_error_keeps_status (s : TrackerState) (msg : String) :
    (fetchStatusHTTPErr s msg).jobStatus = s.jobStatus
    ∧ (fetchStatusHTTPErr s msg).error = some msg :=
  ⟨rfl, rfl⟩

/-- Truthiness of an optional string, propositionally. -/
theorem truthyStr_eq_true (o : Option String) :
    truthyStr o = true ↔ ∃ s, o = some s ∧ s ≠ "" := by
  cases o <;> simp [truthyStr]

/-- C10: the view/download-results actions are available exactly when the
canonical status is `completed`, or a present non-empty `result_file` coexists
with progress exactly 100 — in particular a `running` descriptor with a result
file at progress 100 is presented as if complete. -/
theorem results_available_iff (j : Frame) :
    resultsAvailable j = true ↔
      (j.status = "completed"
        ∨ ((∃ s, j.result_file = some s ∧ s ≠ "") ∧ j.progress = 100)) := by
  simp [resultsAvailable, truthyStr_eq_true, Bool.or_eq_true,
    Bool.and_eq_true, beq_iff_eq]

/-! ## Workflow-controller theorems -/

/-- A concrete page state at the configuration step with a content file. -/
def pageAtConfig : PageState :=
  { activeStep := 1, contentFile := some ⟨"u/content.xlsx", "content.xlsx"⟩,
    linksFile := none, gscFile := none, minSimilarity := 1/5,
    anchorSuggestions := 3, analyzing := false, error := none, jobId := none }

/-- The same page while a submission is in flight. -/
def pageSubmitting : PageState :=
  { pageAtConfig with analyzing := true }

/-- C6: a failed submission surfaces the failure reason and returns the
workflow to Configuring (the stepper stays at step 1 and `analyzing` is
cleared) while every previously accumulated file descriptor and the analysis
configuration are retained unchanged, so the user can retry without
re-uploading. -/
theorem submission_failure_retains_inputs (s : PageState) (f : FileDesc)
    (hc : s.contentFile = some f) (hstep : s.activeStep = 1) :
    (startAnalysis s SubmitOutcome.failure).1.activeStep = 1
    ∧ (startAnalysis s SubmitOutcome.failure).1.analyzing = false
    ∧ (startAnalysis s SubmitOutcome.failure).1.error =
        some "Erreur lors du démarrage de l\x27analyse"
    ∧ (startAnalysis s SubmitOutcome.failure).1.contentFile = s.contentFile
    ∧ (startAnalysis s SubmitOutcome.failure).1.linksFile = s.linksFile
    ∧ (startAnalysis s SubmitOutcome.failure).1.gscFile = s.gscFile
    ∧ (startAnalysis s SubmitOutcome.failure).1.minSimilarity = s.minSimilarity
    ∧ (startAnalysis s SubmitOutcome.failure).1.anchorSuggestions =
        s.anchorSuggestions := by
  have hn : s.contentFile.isNone = false := by rw [hc]; rfl
  simp [startAnalysis, hn, hstep]

/-- Witness for C6: the concrete configuring state satisfies both hypotheses
and the failed submission keeps the stepper at the configuration step. -/
theorem submission_failure_retains_inputs_witness :
    (pageAtConfig.contentFile = some ⟨"u/content.xlsx", "content.xlsx"⟩
      ∧ pageAtConfig.activeStep = 1)
    ∧ (startAnalysis pageAtConfig SubmitOutcome.failure).1.activeStep = 1 :=
  ⟨⟨rfl, rfl⟩,
   (submission_failure_retains_inputs pageAtConfig
      ⟨"u/content.xlsx", "content.xlsx"⟩ rfl rfl).1⟩

/-- C7 counterexample: invoking submit while a submission is already in flight
(`analyzing = true`, content file present) is not a no-op — a new submission
request is issued and the state changes. -/
theorem resubmit_not_noop :
    (startAnalysis pageSubmitting (SubmitOutcome.success "abc123")).2 = true
    ∧ (startAnalysis pageSubmitting
        (SubmitOutcome.success "abc123")).1.activeStep ≠
      pageSubmitting.activeStep :=
  ⟨rfl, by decide⟩

/-- C7 amended: the source has no re-entry guard — whenever a content file is
present, invoking submit issues a new submission request even while one is
already in flight, so more than one submission can be in flight at a time. -/
theorem resubmit_always_submits (s : PageState) (o : SubmitOutcome)
    (h : s.contentFile.isSome = true) :
    (startAnalysis s o).2 = true := by
  have hn : s.contentFile.isNone = false := by
    cases hcf : s.contentFile with
    | none => rw [hcf] at h; simp at h
    | some v => rfl
  unfold startAnalysis
  rw [hn]
  cases o <;> simp

/-- Witness for C7 (amended): the in-flight state has a content file and a
second submit issues a request. -/
theorem resubmit_always_submits_witness :
    pageSubmitting.contentFile.isSome = true
    ∧ (startAnalysis pageSubmitting SubmitOutcome.failure).2 = true :=
  ⟨rfl, resubmit_always_submits pageSubmitting SubmitOutcome.failure rfl⟩

/-- A concrete application state of a finished run with an edited analysis
configuration and a mounted tracker. -/
def appBeforeReset : AppState :=
  { page := { pageAtConfig with
                activeStep := 2, anchorSuggestions := 7,
                jobId := some "abc123" },
    tracker := some { initialTracker with
                        jobStatus :=
                          some ⟨"completed", 100, "terminé", some "r1.xlsx"⟩,
                        logHistory := ["terminé"], loading := false } }

/-- C8 counterexample: reset does not discard the analysis configuration — an
edited `anchorSuggestions` of 7 survives `handleReset` instead of returning to
the initial value 3 (`minSimilarity` is likewise untouched by the source). -/
theorem reset_keeps_config :
    (handleReset appBeforeReset).page.anchorSuggestions = 7
    ∧ (7 : Int) ≠ 3 :=
  ⟨rfl, by decide⟩

/-- C8 amended: from any state, reset returns the stepper to step 0
(CollectingInputs), discards every file descriptor, the job id, the error
banner, and the mounted tracker (hence the status log, the channel
subscription and the ping timer), and a stale frame delivered after reset has
no observable effect; the analysis configuration (`minSimilarity`,
`anchorSuggestions`), however, is retained rather than discarded. -/
theorem reset_clears_run (a : AppState) (f : Frame) :
    (handleReset a).page.activeStep = 0
    ∧ (handleReset a).page.contentFile = none
    ∧ (handleReset a).page.linksFile = none
    ∧ (handleReset a).page.gscFile = none
    ∧ (handleReset a).page.jobId = none
    ∧ (handleReset a).page.error = none
    ∧ (handleReset a).tracker = none
    ∧ (handleReset a).page.minSimilarity = a.page.minSimilarity
    ∧ (handleReset a).page.anchorSuggestions = a.page.anchorSuggestions
    ∧ deliverFrame (handleReset a) f = handleReset a :=
  ⟨rfl, rfl, rfl, rfl, rfl, rfl, rfl, rfl, rfl, rfl⟩

end Maillage
